import Mathlib

/-!
Verification development for the segment-retiming and video re-assembly core
of the transvoice repository (`video_processor.py`, with the speed threshold
also present in `video_synthesizer.py`).

The embedding models the pure decision logic of the source: times are exact
rationals (the Python floats originate from integer milliseconds and measured
durations), and every external `ffmpeg`/`ffprobe` invocation is abstracted as
a boolean (or optional-value) outcome supplied by an environment record, so
the control flow of the Python functions becomes a total Lean function of the
environment.
-/

/-- Kind tag of a timeline segment, `'type'` field in `process_video_translation`. -/
inductive SegKind
  | gap
  | speech
  | tail
deriving DecidableEq, Repr

/-- One synthesized speech clip, an entry of `audio_files` in
`process_video_translation`: timing parsed from the file name
(`tts_{start}_{end}_{hash}.wav`, integer milliseconds) plus the measured
duration of the synthesized audio (`new_duration`). -/
structure AudioFileInfo where
  start_ms : ℕ
  end_ms : ℕ
  new_duration : ℚ
deriving DecidableEq, Repr

/-- `audio['original_start'] = start_ms / 1000.0`. -/
def AudioFileInfo.original_start (a : AudioFileInfo) : ℚ := (a.start_ms : ℚ) / 1000

/-- `audio['original_end'] = end_ms / 1000.0`. -/
def AudioFileInfo.original_end (a : AudioFileInfo) : ℚ := (a.end_ms : ℚ) / 1000

/-- `audio['original_duration'] = (end_ms - start_ms) / 1000.0`. -/
def AudioFileInfo.original_duration (a : AudioFileInfo) : ℚ :=
  ((a.end_ms : ℚ) - (a.start_ms : ℚ)) / 1000

/-- A segment produced by step 1 of `process_video_translation`
(an entry of `original_segments`). `silenced` records whether the
silence-normalized clip or the original-audio fallback is carried. -/
structure Seg1 where
  start : ℚ
  stop : ℚ
  kind : SegKind
  silenced : Bool
  unit : Option AudioFileInfo
deriving DecidableEq, Repr

/-- Outcomes of every external process invocation made by
`process_video_translation`, indexed the way the source indexes them
(loop counters). `true` means the corresponding `ffmpeg`/`ffprobe` call
succeeded and produced a valid file. -/
structure RunEnv where
  videoExists : Bool
  audioDirExists : Bool
  probeOk : Bool
  gapExtractOk : ℕ → Bool
  gapSilenceOk : ℕ → Bool
  speechExtractOk : ℕ → Bool
  tailExtractOk : Bool
  tailSilenceOk : Bool
  speedAdjustOk : ℕ → Bool
  ttsAudioExists : ℕ → Bool
  clipExists : ℕ → Bool
  mergeOk : ℕ → Bool
  normalizeOk : ℕ → Bool
  concatCopyOk : Bool
  concatReencodeOk : Bool

/-- The environment in which every external invocation succeeds. -/
def allOkEnv : RunEnv :=
  ⟨true, true, true, fun _ => true, fun _ => true, fun _ => true, true, true,
   fun _ => true, fun _ => true, fun _ => true, fun _ => true, fun _ => true,
   true, true⟩

/-- Step 1 main loop of `process_video_translation` (lines 770-829): walk the
sorted audio units with a cursor `current_time`; before each unit emit the gap
segment `[cursor, unit.start)` when `unit.start > cursor` unless its duration
is below 1.0 s (dropped) or its extraction failed (silently skipped); then
emit the speech segment `[unit.start, unit.end)` when its extraction
succeeded; finally advance the cursor to `unit.end`. -/
def step1Core (env : RunEnv) : ℕ → ℚ → List AudioFileInfo → List Seg1
  | _, _, [] => []
  | i, c, u :: rest =>
    (if c < u.original_start then
       (if u.original_start - c < 1 then []
        else if env.gapExtractOk i then
          [⟨c, u.original_start, SegKind.gap, env.gapSilenceOk i, none⟩]
        else [])
     else [])
    ++ (if env.speechExtractOk i then
          [⟨u.original_start, u.original_end, SegKind.speech, false, some u⟩]
        else [])
    ++ step1Core env (i + 1) u.original_end rest

/-- Value of `current_time` after the step-1 loop: the last unit's
`original_end`, or the initial cursor when there are no units. -/
def endCursor : ℚ → List AudioFileInfo → ℚ
  | c, [] => c
  | _, u :: rest => endCursor u.original_end rest

/-- Tail handling of `process_video_translation` (lines 832-865): when the
cursor stops short of the video duration, emit the tail segment unless it is
shorter than 1.0 s (dropped) or its extraction failed. -/
def tailSegs (env : RunEnv) (c vd : ℚ) : List Seg1 :=
  if c < vd then
    if vd - c < 1 then []
    else if env.tailExtractOk then [⟨c, vd, SegKind.tail, env.tailSilenceOk, none⟩]
    else []
  else []

/-- Step 1 of `process_video_translation`: the full `original_segments` list. -/
def step1 (env : RunEnv) (units : List AudioFileInfo) (vd : ℚ) : List Seg1 :=
  step1Core env 0 0 units ++ tailSegs env (endCursor 0 units) vd

/-- The precondition the spec places on the unit list, relative to a cursor:
units start at or after the cursor, each spans positive time, and consecutive
units do not overlap (`audio_files` is sorted by `original_start`). -/
def sortedFromB : ℚ → List AudioFileInfo → Bool
  | _, [] => true
  | c, u :: rest =>
    decide (c ≤ u.original_start) && decide (u.start_ms < u.end_ms)
      && sortedFromB u.original_end rest

/-- `coversB c vd spans` holds when the spans are chronologically ordered and
contiguous from `c` to `vd`, except for holes strictly shorter than 1.0 s
(the dropped sub-threshold gaps), with the final hole before `vd` also
strictly shorter than 1.0 s. -/
def coversB : ℚ → ℚ → List (ℚ × ℚ) → Bool
  | c, vd, [] => decide (vd - c < 1)
  | c, vd, s :: rest =>
    decide (c ≤ s.1) && decide (s.1 - c < 1) && decide (s.1 < s.2) && coversB s.2 vd rest

/-- Projection of a segment list to its time spans. -/
def segSpans (l : List Seg1) : List (ℚ × ℚ) :=
  l.map (fun s => (s.start, s.stop))

/-- All gap spans the step-1 walk encounters (before the 1.0 s drop rule
is applied), with their kinds. -/
def candidateCore : ℚ → List AudioFileInfo → List (ℚ × ℚ × SegKind)
  | _, [] => []
  | c, u :: rest =>
    (if c < u.original_start then [(c, u.original_start, SegKind.gap)] else [])
      ++ candidateCore u.original_end rest

/-- All gap and tail spans the step-1 walk encounters, before the drop rule. -/
def candidateSpans (units : List AudioFileInfo) (vd : ℚ) : List (ℚ × ℚ × SegKind) :=
  candidateCore 0 units
    ++ (if endCursor 0 units < vd then [(endCursor 0 units, vd, SegKind.tail)] else [])

/-- The non-speech (gap and tail) segments of a segment list, as spans. -/
def nonSpeechSpans (l : List Seg1) : List (ℚ × ℚ × SegKind) :=
  (l.filter (fun s => s.kind != SegKind.speech)).map (fun s => (s.start, s.stop, s.kind))

/-- The speech segments that step 1 keeps: exactly the units whose
extraction succeeded, in order, as speech segments. -/
def keptSpeech (env : RunEnv) : ℕ → List AudioFileInfo → List Seg1
  | _, [] => []
  | i, u :: rest =>
    (if env.speechExtractOk i then
       [⟨u.original_start, u.original_end, SegKind.speech, false, some u⟩]
     else [])
    ++ keptSpeech env (i + 1) rest

/-- A segment after step 2 of `process_video_translation` (an entry of
`speed_adjusted_segments`). `invoked` records whether the Speed Adjuster
(`adjust_video_speed_with_audio`) was called for it, `retimed` whether its
output clip is carried (on failure the unretimed clip is kept), and `factor`
the effective speed factor of the carried clip. -/
structure Seg2 where
  kind : SegKind
  duration : ℚ
  invoked : Bool
  retimed : Bool
  factor : ℚ
  unit : Option AudioFileInfo
deriving DecidableEq, Repr

/-- Step 2 of `process_video_translation` for one segment (lines 880-912):
for a speech segment compute `speed_factor = duration / new_duration`; skip
the Speed Adjuster when `|factor - 1| < 0.01`; otherwise invoke it, and on
failure fall back to the unretimed clip with factor `1.0`. Gap and tail
segments pass through unchanged. -/
def step2Seg (env : RunEnv) (i : ℕ) (s : Seg1) : Seg2 :=
  match s.kind, s.unit with
  | SegKind.speech, some u =>
    if |(s.stop - s.start) / u.new_duration - 1| < 1/100 then
      ⟨SegKind.speech, u.new_duration, false, false, 1, some u⟩
    else if env.speedAdjustOk i then
      ⟨SegKind.speech, u.new_duration, true, true, (s.stop - s.start) / u.new_duration, some u⟩
    else
      ⟨SegKind.speech, u.new_duration, true, false, 1, some u⟩
  | SegKind.speech, none => ⟨SegKind.speech, s.stop - s.start, false, false, 1, none⟩
  | k, _ => ⟨k, s.stop - s.start, false, false, 1, none⟩

/-- Step 2 loop over `original_segments`, with its enumeration counter. -/
def step2Loop (env : RunEnv) : ℕ → List Seg1 → List Seg2
  | _, [] => []
  | i, s :: rest => step2Seg env i s :: step2Loop env (i + 1) rest

/-- Step 2 of `process_video_translation`. -/
def step2 (env : RunEnv) (segs : List Seg1) : List Seg2 :=
  step2Loop env 0 segs

/-- Step 3 of `process_video_translation` (lines 925-953): for each speech
segment, check the TTS audio file and the carried clip exist and replace the
clip's audio via `merge_audio_with_video`; any failure returns immediately
(`return False`), aborting the run. Gap and tail segments pass through. -/
def step3Loop (env : RunEnv) : ℕ → List Seg2 → Option (List Seg2)
  | _, [] => some []
  | i, s :: rest =>
    if s.kind == SegKind.speech then
      if env.ttsAudioExists i && env.clipExists i && env.mergeOk i then
        (step3Loop env (i + 1) rest).map (s :: ·)
      else none
    else (step3Loop env (i + 1) rest).map (s :: ·)

/-- Step 3 of `process_video_translation`. -/
def step3 (env : RunEnv) (segs : List Seg2) : Option (List Seg2) :=
  step3Loop env 0 segs

/-- Which concatenation strategy produced the final output in step 4. -/
inductive ConcatMode
  | copy
  | reencode
deriving DecidableEq, Repr

/-- Step 4 of `process_video_translation` (lines 963-1050): require a
non-empty segment list, normalize every segment (any failure returns
`False`), then concatenate by stream copy and, only if that exits non-zero,
retry once with a full re-encode; if that also fails the run fails with no
further retry. -/
def concatFinish (env : RunEnv) (finalSegs : List Seg2) : Option (ConcatMode × List Seg2) :=
  if finalSegs.isEmpty then none
  else if ((List.range finalSegs.length).all env.normalizeOk) = false then none
  else if env.concatCopyOk then some (ConcatMode.copy, finalSegs)
  else if env.concatReencodeOk then some (ConcatMode.reencode, finalSegs)
  else none

/-- The decision logic of `VideoProcessor.process_video_translation`:
input checks, the four-step pipeline, per-segment normalization (any failure
aborts), then concatenation by stream copy with a single re-encode fallback.
`some (mode, segs)` is a successful run that joined `segs` using `mode`;
`none` is `return False`. -/
def process_video_translation (env : RunEnv) (units : List AudioFileInfo) (vd : ℚ) :
    Option (ConcatMode × List Seg2) :=
  if env.videoExists = false then none
  else if env.audioDirExists = false then none
  else if env.probeOk = false then none
  else if units.isEmpty then none
  else
    match step3 env (step2 env (step1 env units vd)) with
    | none => none
    | some finalSegs => concatFinish env finalSegs

/-- Replace the speed-adjuster outcomes of an environment (all other
external-call outcomes unchanged). -/
def setSpeed (env : RunEnv) (f : ℕ → Bool) : RunEnv :=
  ⟨env.videoExists, env.audioDirExists, env.probeOk, env.gapExtractOk,
   env.gapSilenceOk, env.speechExtractOk, env.tailExtractOk, env.tailSilenceOk,
   f, env.ttsAudioExists, env.clipExists, env.mergeOk, env.normalizeOk,
   env.concatCopyOk, env.concatReencodeOk⟩

/-- How `merge_audio_with_video` step 2 treats the TTS audio. -/
inductive AudioFix
  | truncate
  | pad
  | asIs
deriving DecidableEq, Repr

/-- Duration reconciliation of `merge_audio_with_video` (lines 368-405):
if the TTS audio is longer than the video it is truncated to the video
duration; if it is shorter by more than 0.1 s it is padded with trailing
silence to the video duration; otherwise it is used as-is. Returns the
treatment and the processed audio duration. -/
def reconcileAudio (videoDur audioDur : ℚ) : AudioFix × ℚ :=
  if videoDur < audioDur then (AudioFix.truncate, videoDur)
  else if audioDur < videoDur - 1/10 then (AudioFix.pad, videoDur)
  else (AudioFix.asIs, audioDur)

/-- Outcomes of the external invocations made by `merge_audio_with_video`.
`videoDuration`/`audioDuration` are the probed input durations (`none` means
the probe exited non-zero); `streamCounts` is the post-mux stream probe:
`some (v, a)` reports `v` video and `a` audio streams, `none` means that
probe (or the parsing of its output) raised an exception; `finalProbeOk` is
the closing duration probe of the output file. -/
structure MergeEnv where
  videoExists : Bool
  audioExists : Bool
  videoDuration : Option ℚ
  audioDuration : Option ℚ
  extractOk : Bool
  cutOk : Bool
  padOk : Bool
  muxOk : Bool
  outputExists : Bool
  outputSize : ℕ
  streamCounts : Option (ℕ × ℕ)
  finalProbeOk : Bool

/-- The decision logic of `VideoProcessor.merge_audio_with_video`
(lines 323-489): strip the video's audio, reconcile the TTS audio duration,
mux, validate the output file, then verify the stream layout — a detected
stream-count mismatch returns `False`, while an exception anywhere in the
verification block is caught and only logged as a warning. -/
def merge_audio_with_video (env : MergeEnv) : Bool :=
  if env.videoExists = false then false
  else if env.audioExists = false then false
  else
    match env.videoDuration, env.audioDuration with
    | some vd, some ad =>
      if env.extractOk = false then false
      else if (match (reconcileAudio vd ad).1 with
               | AudioFix.truncate => env.cutOk
               | AudioFix.pad => env.padOk
               | AudioFix.asIs => true) = false then false
      else if env.muxOk = false then false
      else if env.outputExists = false then false
      else if env.outputSize < 1024 then false
      else
        match env.streamCounts with
        | some (v, a) => if v = 1 ∧ a = 1 then env.finalProbeOk else false
        | none => env.finalProbeOk
    | _, _ => false

/-- Outcomes of the external invocations made by the two extraction
primitives. `copyValid`/`reencodeValid` are the post-run checks that the
output file exists and exceeds 1 KiB. -/
structure ExtractEnv where
  placeholderOk : Bool
  copyRunOk : Bool
  copyValid : Bool
  reencodeRunOk : Bool
  reencodeValid : Bool
  tempExtractOk : Bool
  speedEncodeOk : Bool

/-- What an extraction primitive produced. `copied`/`reencoded` carry the
`-t` duration passed to the transcode tool; `speeded` carries the speed
factor applied. -/
inductive ExtractOutcome
  | placeholder
  | copied (t : ℚ)
  | reencoded (t : ℚ)
  | speeded (factor : ℚ)
  | failed
deriving DecidableEq, Repr

/-- The decision logic of `VideoProcessor.create_speed_adjusted_video_segment`
(lines 183-321): spans under 0.1 s synthesize a black placeholder clip and
report success; factors within 0.01 of 1 extract by stream copy with a
re-encode retry when the copy run fails or its output is invalid; other
factors extract to a temporary clip and re-encode it with rescaled
timestamps. -/
def create_speed_adjusted_video_segment (env : ExtractEnv)
    (start_time end_time target_duration : ℚ) : ExtractOutcome :=
  let od := end_time - start_time
  let f := if |od - target_duration| < 1/100 then 1 else od / target_duration
  if od < 1/10 then
    (if env.placeholderOk then ExtractOutcome.placeholder else ExtractOutcome.failed)
  else if |f - 1| < 1/100 then
    (if env.copyRunOk && env.copyValid then ExtractOutcome.copied od
     else if env.reencodeRunOk && env.reencodeValid then
       ExtractOutcome.reencoded (max od (1/10))
     else ExtractOutcome.failed)
  else if env.tempExtractOk && env.speedEncodeOk then ExtractOutcome.speeded f
  else ExtractOutcome.failed

/-- The decision logic of `VideoProcessor.create_video_segment_with_audio`
(lines 549-608): cut `[start_time, end_time)` keeping the audio track by
stream copy; when the copy run raised, fail; when it ran but its output is
missing or under 1 KiB, retry with a re-encode whose `-t` is clamped up to
0.1 s. There is no sub-0.1 s placeholder path. -/
def create_video_segment_with_audio (env : ExtractEnv)
    (start_time end_time : ℚ) : ExtractOutcome :=
  let d := end_time - start_time
  if env.copyRunOk = false then ExtractOutcome.failed
  else if env.copyValid then ExtractOutcome.copied d
  else if env.reencodeRunOk = false then ExtractOutcome.failed
  else if env.reencodeValid then ExtractOutcome.reencoded (max d (1/10))
  else ExtractOutcome.failed

/-- The extraction environment in which every invocation succeeds. -/
def allOkExtractEnv : ExtractEnv := ⟨true, true, true, true, true, true, true⟩

lemma segSpans_nil : segSpans [] = [] := rfl

lemma segSpans_cons (s : Seg1) (l : List Seg1) :
    segSpans (s :: l) = (s.start, s.stop) :: segSpans l := rfl

lemma segSpans_append (a b : List Seg1) : segSpans (a ++ b) = segSpans a ++ segSpans b :=
  List.map_append _ _ _

lemma original_lt (u : AudioFileInfo) (h : u.start_ms < u.end_ms) :
    u.original_start < u.original_end := by
  unfold AudioFileInfo.original_start AudioFileInfo.original_end
  rw [div_eq_mul_inv, div_eq_mul_inv]
  have h1 : ((u.start_ms : ℚ)) < (u.end_ms : ℚ) := by exact_mod_cast h
  exact mul_lt_mul_of_pos_right h1 (by norm_num)

lemma step1Core_coversB (env : RunEnv) (vd : ℚ)
    (hg : ∀ j, env.gapExtractOk j = true) (hs : ∀ j, env.speechExtractOk j = true) :
    ∀ (units : List AudioFileInfo) (i : ℕ) (c : ℚ) (T : List (ℚ × ℚ)),
      sortedFromB c units = true →
      coversB (endCursor c units) vd T = true →
      coversB c vd (segSpans (step1Core env i c units) ++ T) = true := by
  intro units
  induction units with
  | nil =>
    intro i c T _ hT
    simpa [step1Core, segSpans, endCursor] using hT
  | cons u rest ih =>
    intro i c T hsort hT
    simp only [sortedFromB, Bool.and_eq_true, decide_eq_true_eq] at hsort
    obtain ⟨⟨hc, hlt⟩, hrest⟩ := hsort
    have hse : u.original_start < u.original_end := original_lt u hlt
    have ihr := ih (i + 1) u.original_end T hrest hT
    by_cases h1 : c < u.original_start
    · by_cases h2 : u.original_start - c < 1
      · simp only [step1Core, if_pos h1, if_pos h2, hs i, if_true, List.nil_append,
          segSpans_append, segSpans_cons, segSpans_nil, List.cons_append, List.append_assoc]
        simp only [coversB, Bool.and_eq_true, decide_eq_true_eq]
        exact ⟨⟨⟨hc, h2⟩, hse⟩, ihr⟩
      · simp only [step1Core, if_pos h1, if_neg h2, hg i, hs i, if_true, List.nil_append,
          segSpans_append, segSpans_cons, segSpans_nil, List.cons_append, List.append_assoc]
        simp only [coversB, Bool.and_eq_true, decide_eq_true_eq]
        exact ⟨⟨⟨le_refl c, by simp⟩, h1⟩, ⟨⟨le_refl _, by simp⟩, hse⟩, ihr⟩
    · have heq : c = u.original_start := le_antisymm hc (not_lt.mp h1)
      simp only [step1Core, if_neg h1, hs i, if_true, List.nil_append,
        segSpans_append, segSpans_cons, segSpans_nil, List.cons_append, List.append_assoc]
      simp only [coversB, Bool.and_eq_true, decide_eq_true_eq]
      exact ⟨⟨⟨hc, by rw [heq]; simp⟩, hse⟩, ihr⟩

lemma tailSegs_coversB (env : RunEnv) (ht : env.tailExtractOk = true) (c vd : ℚ)
    (hc : c ≤ vd) : coversB c vd (segSpans (tailSegs env c vd)) = true := by
  unfold tailSegs
  by_cases h1 : c < vd
  · by_cases h2 : vd - c < 1
    · simp only [if_pos h1, if_pos h2, segSpans_nil, coversB, decide_eq_true_eq]
      exact h2
    · simp only [if_pos h1, if_neg h2, ht, if_true, segSpans_cons, segSpans_nil, coversB,
        Bool.and_eq_true, decide_eq_true_eq]
      exact ⟨⟨⟨le_refl c, by simp⟩, h1⟩, by simp⟩
  · simp only [if_neg h1, segSpans_nil, coversB, decide_eq_true_eq]
    have : vd = c := le_antisymm (not_lt.mp h1) hc
    simp [this]

lemma step1Core_filter_speech (env : RunEnv) :
    ∀ (units : List AudioFileInfo) (i : ℕ) (c : ℚ),
      (step1Core env i c units).filter (fun s => s.kind == SegKind.speech)
        = keptSpeech env i units := by
  intro units
  induction units with
  | nil => intro i c; rfl
  | cons u rest ih =>
    intro i c
    simp only [step1Core, keptSpeech, List.filter_append, ih]
    split_ifs <;> simp

lemma tailSegs_filter_speech (env : RunEnv) (c vd : ℚ) :
    (tailSegs env c vd).filter (fun s => s.kind == SegKind.speech) = [] := by
  unfold tailSegs
  split_ifs <;> simp

lemma keptSpeech_allOk :
    ∀ (units : List AudioFileInfo) (i : ℕ),
      keptSpeech allOkEnv i units
        = units.map (fun u => ⟨u.original_start, u.original_end, SegKind.speech, false, some u⟩) := by
  intro units
  induction units with
  | nil => intro i; rfl
  | cons u rest ih =>
    intro i
    have hp : allOkEnv.speechExtractOk i = true := rfl
    simp [keptSpeech, hp, ih]

lemma nonSpeechSpans_append (a b : List Seg1) :
    nonSpeechSpans (a ++ b) = nonSpeechSpans a ++ nonSpeechSpans b := by
  unfold nonSpeechSpans
  rw [List.filter_append, List.map_append]

lemma step1Core_nonspeech (env : RunEnv) (hg : ∀ j, env.gapExtractOk j = true) :
    ∀ (units : List AudioFileInfo) (i : ℕ) (c : ℚ),
      nonSpeechSpans (step1Core env i c units)
        = (candidateCore c units).filter (fun sp => decide (1 ≤ sp.2.1 - sp.1)) := by
  intro units
  induction units with
  | nil => intro i c; rfl
  | cons u rest ih =>
    intro i c
    simp only [step1Core, candidateCore, nonSpeechSpans_append, List.filter_append, ih]
    by_cases h1 : c < u.original_start
    · by_cases h2 : u.original_start - c < 1
      · have hnot : ¬(1 ≤ u.original_start - c) := not_le.mpr h2
        simp only [if_pos h1]
        rw [if_pos h2]
        simp [nonSpeechSpans, hnot]
      · have hyes : 1 ≤ u.original_start - c := not_lt.mp h2
        simp only [if_pos h1]
        rw [if_neg h2, hg i]
        simp [nonSpeechSpans, hyes]
    · simp only [if_neg h1]
      simp [nonSpeechSpans]

lemma tailSegs_nonspeech (env : RunEnv) (ht : env.tailExtractOk = true) (c vd : ℚ) :
    nonSpeechSpans (tailSegs env c vd)
      = (if c < vd then [(c, vd, SegKind.tail)] else []).filter
          (fun sp => decide (1 ≤ sp.2.1 - sp.1)) := by
  unfold tailSegs
  by_cases h1 : c < vd
  · by_cases h2 : vd - c < 1
    · have hnot : ¬(1 ≤ vd - c) := not_le.mpr h2
      simp [h1, h2, nonSpeechSpans, hnot]
    · have hyes : 1 ≤ vd - c := not_lt.mp h2
      simp [h1, h2, ht, nonSpeechSpans, hyes]
  · simp [h1, nonSpeechSpans]

/-- C1: for a start-sorted, non-overlapping unit list that fits inside the
video, the segment list emitted by the Segment Planner (step 1 of
`process_video_translation`, with the external extraction calls succeeding)
is chronologically ordered and contiguous, covering `[0, video_duration]`
except for holes (dropped gap or tail spans) strictly shorter than 1.0 s,
and it contains one speech segment `[unit.start_s, unit.end_s)` per unit, in
order. -/
theorem planner_C1 (units : List AudioFileInfo) (vd : ℚ)
    (hsort : sortedFromB 0 units = true) (hend : endCursor 0 units ≤ vd) :
    coversB 0 vd (segSpans (step1 allOkEnv units vd)) = true ∧
    ((step1 allOkEnv units vd).filter (fun s => s.kind == SegKind.speech)).map
        (fun s => (s.start, s.stop))
      = units.map (fun u => (u.original_start, u.original_end)) := by
  constructor
  · unfold step1
    rw [segSpans_append]
    exact step1Core_coversB allOkEnv vd (fun _ => rfl) (fun _ => rfl) units 0 0 _ hsort
      (tailSegs_coversB allOkEnv rfl _ vd hend)
  · unfold step1
    rw [List.filter_append, step1Core_filter_speech, tailSegs_filter_speech, List.append_nil,
      keptSpeech_allOk, List.map_map]
    rfl

/-- Witness for C1 at the spec's end-to-end scenario: one unit at
10 s - 20 s with 8 s of synthesized audio inside a 60 s video. -/
theorem planner_C1_witness :
    (sortedFromB 0 [⟨10000, 20000, 8⟩] = true ∧ endCursor 0 [⟨10000, 20000, 8⟩] ≤ 60) ∧
    (coversB 0 60 (segSpans (step1 allOkEnv [⟨10000, 20000, 8⟩] 60)) = true ∧
      ((step1 allOkEnv [⟨10000, 20000, 8⟩] 60).filter (fun s => s.kind == SegKind.speech)).map
          (fun s => (s.start, s.stop))
        = ([⟨10000, 20000, 8⟩] : List AudioFileInfo).map
            (fun u => (u.original_start, u.original_end))) :=
  ⟨⟨by norm_num [sortedFromB, AudioFileInfo.original_start, AudioFileInfo.original_end],
    by norm_num [endCursor, AudioFileInfo.original_end]⟩,
    planner_C1 [⟨10000, 20000, 8⟩] 60
      (by norm_num [sortedFromB, AudioFileInfo.original_start, AudioFileInfo.original_end])
      (by norm_num [endCursor, AudioFileInfo.original_end])⟩

/-- C5: a gap or tail segment appears in the Segment Planner's output
(step 1 of `process_video_translation`, extraction calls succeeding) exactly
when the gap or tail span encountered by the walk has duration at least
1.0 s: the emitted non-speech spans are the walk's candidate spans filtered
by that threshold. -/
theorem planner_C5 (units : List AudioFileInfo) (vd : ℚ) :
    nonSpeechSpans (step1 allOkEnv units vd)
      = (candidateSpans units vd).filter (fun sp => decide (1 ≤ sp.2.1 - sp.1)) := by
  unfold step1 candidateSpans
  rw [nonSpeechSpans_append, List.filter_append,
    step1Core_nonspeech allOkEnv (fun _ => rfl) units 0 0,
    tailSegs_nonspeech allOkEnv rfl (endCursor 0 units) vd]

/-- C4 (amended): when both extraction attempts fail for a speech segment,
the run is not aborted; the segment is silently omitted and the walk
continues, so the speech segments of the step-1 output are exactly the units
whose extraction succeeded, in order. -/
theorem planner_C4_amended (env : RunEnv) (units : List AudioFileInfo) (i : ℕ) (c : ℚ) :
    (step1Core env i c units).filter (fun s => s.kind == SegKind.speech)
      = keptSpeech env i units :=
  step1Core_filter_speech env units i c

/-- Environment in which every external call succeeds except the extraction
(both the stream-copy and the re-encode attempt) of the first speech
segment. -/
def envC4 : RunEnv :=
  ⟨true, true, true, fun _ => true, fun _ => true, fun i => i != 0, true, true,
   fun _ => true, fun _ => true, fun _ => true, fun _ => true, fun _ => true, true, true⟩

/-- C4 counterexample: with two units at 0 s - 2 s and 3 s - 5 s in a 10 s
video, both extraction attempts failing for the first unit's speech segment
does not abort the run: the pipeline continues through the remaining
segments and succeeds, producing a joined output that silently omits the
failed segment (no kept segment is bound to the unit starting at 0 ms). -/
theorem planner_C4_counterexample :
    process_video_translation envC4 [⟨0, 2000, 2⟩, ⟨3000, 5000, 2⟩] 10
      = some (ConcatMode.copy,
          [⟨SegKind.gap, 1, false, false, 1, none⟩,
           ⟨SegKind.speech, 2, false, false, 1, some ⟨3000, 5000, 2⟩⟩,
           ⟨SegKind.tail, 5, false, false, 1, none⟩]) ∧
    (process_video_translation envC4 [⟨0, 2000, 2⟩, ⟨3000, 5000, 2⟩] 10).map
        (fun r => r.2.all (fun s => (s.unit.map AudioFileInfo.start_ms) != some 0))
      = some true := by
  have h : process_video_translation envC4 [⟨0, 2000, 2⟩, ⟨3000, 5000, 2⟩] 10
      = some (ConcatMode.copy,
          [⟨SegKind.gap, 1, false, false, 1, none⟩,
           ⟨SegKind.speech, 2, false, false, 1, some ⟨3000, 5000, 2⟩⟩,
           ⟨SegKind.tail, 5, false, false, 1, none⟩]) := by
    norm_num [process_video_translation, concatFinish, step1, step1Core, tailSegs, endCursor,
      step2, step2Loop, step2Seg, step3, step3Loop, envC4, AudioFileInfo.original_start,
      AudioFileInfo.original_end, List.range_succ]
  refine ⟨h, ?_⟩
  rw [h]
  decide

/-- C6: for a speech segment, the speed factor is
`seg.duration / unit.synthesized_duration_seconds` and the Speed Adjuster is
invoked exactly when that factor differs from 1 by at least 0.01; in
particular when the segment duration equals the synthesized audio duration
no speed-adjust step is invoked and the clip is carried unchanged with
factor 1. -/
theorem planner_C6 (env : RunEnv) (i : ℕ) (s : Seg1) (u : AudioFileInfo)
    (hk : s.kind = SegKind.speech) (hu : s.unit = some u) :
    ((step2Seg env i s).invoked = true ↔
      1/100 ≤ |(s.stop - s.start) / u.new_duration - 1|) ∧
    ((step2Seg env i s).factor
      = if (step2Seg env i s).retimed = true then (s.stop - s.start) / u.new_duration else 1) ∧
    (s.stop - s.start = u.new_duration → u.new_duration ≠ 0 →
      (step2Seg env i s).invoked = false ∧ (step2Seg env i s).retimed = false ∧
        (step2Seg env i s).factor = 1) := by
  obtain ⟨st, sp, k, sil, un⟩ := s
  simp only at hk hu
  subst hk
  subst hu
  by_cases h : |(sp - st) / u.new_duration - 1| < 1/100
  · have hstep : step2Seg env i ⟨st, sp, SegKind.speech, sil, some u⟩
        = ⟨SegKind.speech, u.new_duration, false, false, 1, some u⟩ := by
      simp only [step2Seg, if_pos h]
    rw [hstep]
    exact ⟨⟨fun hb => absurd hb (by simp), fun hb => (not_le.mpr h hb).elim⟩,
      by simp, fun _ _ => ⟨rfl, rfl, rfl⟩⟩
  · by_cases hA : env.speedAdjustOk i = true
    · have hstep : step2Seg env i ⟨st, sp, SegKind.speech, sil, some u⟩
          = ⟨SegKind.speech, u.new_duration, true, true,
             (sp - st) / u.new_duration, some u⟩ := by
        simp only [step2Seg, if_neg h, if_pos hA]
      rw [hstep]
      refine ⟨⟨fun _ => not_lt.mp h, fun _ => rfl⟩, by simp, ?_⟩
      intro he hne
      exfalso
      apply h
      rw [he, div_self hne]
      norm_num
    · have hstep : step2Seg env i ⟨st, sp, SegKind.speech, sil, some u⟩
          = ⟨SegKind.speech, u.new_duration, true, false, 1, some u⟩ := by
        simp only [step2Seg, if_neg h, if_neg hA]
      rw [hstep]
      refine ⟨⟨fun _ => not_lt.mp h, fun _ => rfl⟩, by simp, ?_⟩
      intro he hne
      exfalso
      apply h
      rw [he, div_self hne]
      norm_num

/-- Witness for C6: a 10 s speech segment whose synthesized audio is also
10 s is carried unchanged, with no Speed Adjuster invocation. -/
theorem planner_C6_witness :
    ((⟨10, 20, SegKind.speech, false, some ⟨10000, 20000, 10⟩⟩ : Seg1).kind = SegKind.speech) ∧
    ((20 : ℚ) - 10 = (10 : ℚ)) ∧
    ((step2Seg allOkEnv 0 ⟨10, 20, SegKind.speech, false, some ⟨10000, 20000, 10⟩⟩).invoked = false ∧
      (step2Seg allOkEnv 0 ⟨10, 20, SegKind.speech, false, some ⟨10000, 20000, 10⟩⟩).retimed = false ∧
      (step2Seg allOkEnv 0 ⟨10, 20, SegKind.speech, false, some ⟨10000, 20000, 10⟩⟩).factor = 1) :=
  ⟨rfl, by norm_num,
    (planner_C6 allOkEnv 0 ⟨10, 20, SegKind.speech, false, some ⟨10000, 20000, 10⟩⟩
        ⟨10000, 20000, 10⟩ rfl rfl).2.2 (by norm_num) (by norm_num)⟩

lemma optionMap_isSome {α β : Type} (f : α → β) (o : Option α) :
    (o.map f).isSome = o.isSome := by
  cases o <;> rfl

lemma step2Seg_kind (env : RunEnv) (i : ℕ) (s : Seg1) : (step2Seg env i s).kind = s.kind := by
  obtain ⟨st, sp, k, sil, un⟩ := s
  cases k <;> cases un <;>
    first
      | rfl
      | (simp only [step2Seg]; split_ifs <;> rfl)

lemma step2Loop_length (env : RunEnv) :
    ∀ (j : ℕ) (segs : List Seg1), (step2Loop env j segs).length = segs.length := by
  intro j segs
  induction segs generalizing j with
  | nil => rfl
  | cons s rest ih => simp [step2Loop, ih]

lemma step2Loop_kinds (env : RunEnv) :
    ∀ (j : ℕ) (segs : List Seg1),
      (step2Loop env j segs).map Seg2.kind = segs.map Seg1.kind := by
  intro j segs
  induction segs generalizing j with
  | nil => rfl
  | cons s rest ih => simp [step2Loop, step2Seg_kind, ih]

lemma step3Loop_isSome (env : RunEnv) :
    ∀ (j : ℕ) (l1 l2 : List Seg2),
      l1.map Seg2.kind = l2.map Seg2.kind →
      (step3Loop env j l1).isSome = (step3Loop env j l2).isSome := by
  intro j l1
  induction l1 generalizing j with
  | nil =>
    intro l2 h
    cases l2 with
    | nil => rfl
    | cons t r2 => simp at h
  | cons s rest ih =>
    intro l2 h
    cases l2 with
    | nil => simp at h
    | cons t r2 =>
      simp only [List.map_cons, List.cons.injEq] at h
      obtain ⟨h1, h2⟩ := h
      simp only [step3Loop, h1]
      by_cases hk : (t.kind == SegKind.speech) = true
      · rw [if_pos hk, if_pos hk]
        by_cases hc : (env.ttsAudioExists j && env.clipExists j && env.mergeOk j) = true
        · rw [if_pos hc, if_pos hc, optionMap_isSome, optionMap_isSome]
          exact ih (j + 1) r2 h2
        · rw [if_neg hc, if_neg hc]
      · rw [if_neg hk, if_neg hk, optionMap_isSome, optionMap_isSome]
        exact ih (j + 1) r2 h2

lemma step3Loop_length (env : RunEnv) :
    ∀ (j : ℕ) (l out : List Seg2), step3Loop env j l = some out → out.length = l.length := by
  intro j l
  induction l generalizing j with
  | nil =>
    intro out h
    simp only [step3Loop, Option.some.injEq] at h
    subst h
    rfl
  | cons s rest ih =>
    intro out h
    simp only [step3Loop] at h
    by_cases hk : (s.kind == SegKind.speech) = true
    · rw [if_pos hk] at h
      by_cases hc : (env.ttsAudioExists j && env.clipExists j && env.mergeOk j) = true
      · rw [if_pos hc] at h
        cases hrec : step3Loop env (j + 1) rest with
        | none => rw [hrec] at h; simp at h
        | some o =>
          rw [hrec] at h
          simp only [Option.map_some', Option.some.injEq] at h
          subst h
          simp [ih (j + 1) o hrec]
      · rw [if_neg hc] at h
        simp at h
    · rw [if_neg hk] at h
      cases hrec : step3Loop env (j + 1) rest with
      | none => rw [hrec] at h; simp at h
      | some o =>
        rw [hrec] at h
        simp only [Option.map_some', Option.some.injEq] at h
        subst h
        simp [ih (j + 1) o hrec]

lemma setSpeed_videoExists (env : RunEnv) (f : ℕ → Bool) :
    (setSpeed env f).videoExists = env.videoExists := rfl

lemma setSpeed_audioDirExists (env : RunEnv) (f : ℕ → Bool) :
    (setSpeed env f).audioDirExists = env.audioDirExists := rfl

lemma setSpeed_probeOk (env : RunEnv) (f : ℕ → Bool) :
    (setSpeed env f).probeOk = env.probeOk := rfl

lemma setSpeed_gapExtractOk (env : RunEnv) (f : ℕ → Bool) :
    (setSpeed env f).gapExtractOk = env.gapExtractOk := rfl

lemma setSpeed_gapSilenceOk (env : RunEnv) (f : ℕ → Bool) :
    (setSpeed env f).gapSilenceOk = env.gapSilenceOk := rfl

lemma setSpeed_speechExtractOk (env : RunEnv) (f : ℕ → Bool) :
    (setSpeed env f).speechExtractOk = env.speechExtractOk := rfl

lemma setSpeed_tailExtractOk (env : RunEnv) (f : ℕ → Bool) :
    (setSpeed env f).tailExtractOk = env.tailExtractOk := rfl

lemma setSpeed_tailSilenceOk (env : RunEnv) (f : ℕ → Bool) :
    (setSpeed env f).tailSilenceOk = env.tailSilenceOk := rfl

lemma setSpeed_ttsAudioExists (env : RunEnv) (f : ℕ → Bool) :
    (setSpeed env f).ttsAudioExists = env.ttsAudioExists := rfl

lemma setSpeed_clipExists (env : RunEnv) (f : ℕ → Bool) :
    (setSpeed env f).clipExists = env.clipExists := rfl

lemma setSpeed_mergeOk (env : RunEnv) (f : ℕ → Bool) :
    (setSpeed env f).mergeOk = env.mergeOk := rfl

lemma setSpeed_normalizeOk (env : RunEnv) (f : ℕ → Bool) :
    (setSpeed env f).normalizeOk = env.normalizeOk := rfl

lemma setSpeed_concatCopyOk (env : RunEnv) (f : ℕ → Bool) :
    (setSpeed env f).concatCopyOk = env.concatCopyOk := rfl

lemma setSpeed_concatReencodeOk (env : RunEnv) (f : ℕ → Bool) :
    (setSpeed env f).concatReencodeOk = env.concatReencodeOk := rfl

lemma setSpeed_step1Core (env : RunEnv) (f : ℕ → Bool) :
    ∀ (units : List AudioFileInfo) (i : ℕ) (c : ℚ),
      step1Core (setSpeed env f) i c units = step1Core env i c units := by
  intro units
  induction units with
  | nil => intro i c; rfl
  | cons u rest ih =>
    intro i c
    simp [step1Core, setSpeed_gapExtractOk, setSpeed_gapSilenceOk, setSpeed_speechExtractOk, ih]

lemma setSpeed_step1 (env : RunEnv) (f : ℕ → Bool) (units : List AudioFileInfo) (vd : ℚ) :
    step1 (setSpeed env f) units vd = step1 env units vd := by
  unfold step1
  rw [setSpeed_step1Core]
  simp [tailSegs, setSpeed_tailExtractOk, setSpeed_tailSilenceOk]

lemma setSpeed_step3Loop (env : RunEnv) (f : ℕ → Bool) :
    ∀ (j : ℕ) (l : List Seg2), step3Loop (setSpeed env f) j l = step3Loop env j l := by
  intro j l
  induction l generalizing j with
  | nil => rfl
  | cons s rest ih =>
    simp [step3Loop, setSpeed_ttsAudioExists, setSpeed_clipExists, setSpeed_mergeOk, ih]

lemma setSpeed_step3 (env : RunEnv) (f : ℕ → Bool) (l : List Seg2) :
    step3 (setSpeed env f) l = step3 env l := by
  unfold step3
  exact setSpeed_step3Loop env f 0 l

lemma concatFinish_isSome_of_length (env : RunEnv) (f : ℕ → Bool) (out1 out2 : List Seg2)
    (hlen : out1.length = out2.length) :
    (concatFinish (setSpeed env f) out1).isSome = (concatFinish env out2).isSome := by
  have he : out1.isEmpty = out2.isEmpty := by
    cases out1 <;> cases out2 <;> simp_all
  unfold concatFinish
  rw [he, hlen, setSpeed_normalizeOk, setSpeed_concatCopyOk, setSpeed_concatReencodeOk]
  split_ifs <;> rfl

/-- C7: a failing speed-adjust step never aborts the run — the success or
failure of `process_video_translation` is unchanged under any replacement of
the speed-adjuster outcomes; step 2 processes every segment (the list length
is preserved); and a speech segment whose speed adjustment fails is carried
as the unretimed clip with an effective factor of 1. -/
theorem planner_C7 (env : RunEnv) (f : ℕ → Bool) (units : List AudioFileInfo) (vd : ℚ) :
    (process_video_translation (setSpeed env f) units vd).isSome
      = (process_video_translation env units vd).isSome ∧
    (∀ (j : ℕ) (segs : List Seg1), (step2Loop env j segs).length = segs.length) ∧
    (∀ (i : ℕ) (s : Seg1) (u : AudioFileInfo),
      s.kind = SegKind.speech → s.unit = some u → env.speedAdjustOk i = false →
      (step2Seg env i s).retimed = false ∧ (step2Seg env i s).factor = 1) := by
  refine ⟨?_, step2Loop_length env, ?_⟩
  · have h1 : step1 (setSpeed env f) units vd = step1 env units vd := setSpeed_step1 env f units vd
    have hkinds : (step2 (setSpeed env f) (step1 env units vd)).map Seg2.kind
        = (step2 env (step1 env units vd)).map Seg2.kind := by
      unfold step2
      rw [step2Loop_kinds, step2Loop_kinds]
    unfold process_video_translation
    rw [setSpeed_videoExists, setSpeed_audioDirExists, setSpeed_probeOk, h1, setSpeed_step3]
    have hsome : (step3 env (step2 (setSpeed env f) (step1 env units vd))).isSome
        = (step3 env (step2 env (step1 env units vd))).isSome :=
      step3Loop_isSome env 0 _ _ hkinds
    rcases e2 : step3 env (step2 env (step1 env units vd)) with _ | out2
    · rcases e1 : step3 env (step2 (setSpeed env f) (step1 env units vd)) with _ | out1
      · split_ifs <;> rfl
      · rw [e1, e2] at hsome
        simp at hsome
    · rcases e1 : step3 env (step2 (setSpeed env f) (step1 env units vd)) with _ | out1
      · rw [e1, e2] at hsome
        simp at hsome
      · have hl1 : out1.length = (step1 env units vd).length := by
          rw [step3Loop_length env 0 _ out1 e1]
          unfold step2
          exact step2Loop_length (setSpeed env f) 0 _
        have hl2 : out2.length = (step1 env units vd).length := by
          rw [step3Loop_length env 0 _ out2 e2]
          unfold step2
          exact step2Loop_length env 0 _
        have hlen : out1.length = out2.length := by rw [hl1, hl2]
        have hfin := concatFinish_isSome_of_length env f out1 out2 hlen
        split_ifs <;> simp [hfin]
  · intro i s u hk hu hfail
    obtain ⟨st, sp, k, sil, un⟩ := s
    simp only at hk hu
    subst hk
    subst hu
    by_cases h : |(sp - st) / u.new_duration - 1| < 1/100
    · simp only [step2Seg, if_pos h]
      simp
    · have hA : ¬(env.speedAdjustOk i = true) := by simp [hfail]
      simp only [step2Seg, if_neg h, if_neg hA]
      simp

/-- Witness for C7: a speech segment needing a 2x speedup whose
speed-adjust call fails is carried unretimed with factor 1. -/
theorem planner_C7_witness :
    ((⟨0, 2, SegKind.speech, false, some ⟨0, 2000, 1⟩⟩ : Seg1).kind = SegKind.speech) ∧
    ((setSpeed allOkEnv (fun _ => false)).speedAdjustOk 0 = false) ∧
    ((step2Seg (setSpeed allOkEnv (fun _ => false)) 0
        ⟨0, 2, SegKind.speech, false, some ⟨0, 2000, 1⟩⟩).retimed = false ∧
      (step2Seg (setSpeed allOkEnv (fun _ => false)) 0
        ⟨0, 2, SegKind.speech, false, some ⟨0, 2000, 1⟩⟩).factor = 1) :=
  ⟨rfl, rfl,
    (planner_C7 (setSpeed allOkEnv (fun _ => false)) (fun _ => false) [] 0).2.2 0
      ⟨0, 2, SegKind.speech, false, some ⟨0, 2000, 1⟩⟩ ⟨0, 2000, 1⟩ rfl rfl rfl⟩

/-- C9: the final concatenation of `process_video_translation` first
attempts the stream-copy join; a successful run used the re-encode fallback
exactly when the copy attempt failed, and when both the copy join and the
re-encode retry fail the whole run reports failure, with no further retry. -/
theorem concat_C9 (env : RunEnv) (units : List AudioFileInfo) (vd : ℚ) :
    (env.concatCopyOk = true → ∀ (m : ConcatMode) (fs : List Seg2),
      process_video_translation env units vd = some (m, fs) → m = ConcatMode.copy) ∧
    (env.concatCopyOk = false → ∀ (m : ConcatMode) (fs : List Seg2),
      process_video_translation env units vd = some (m, fs)
        → m = ConcatMode.reencode ∧ env.concatReencodeOk = true) ∧
    (env.concatCopyOk = false → env.concatReencodeOk = false →
      process_video_translation env units vd = none) := by
  have key : ∀ (m : ConcatMode) (fs : List Seg2),
      process_video_translation env units vd = some (m, fs) →
      ∃ fs0, concatFinish env fs0 = some (m, fs) := by
    intro m fs h
    unfold process_video_translation at h
    split_ifs at h
    rcases e : step3 env (step2 env (step1 env units vd)) with _ | fs0
    · rw [e] at h
      simp at h
    · rw [e] at h
      exact ⟨fs0, h⟩
  have keyNone : env.concatCopyOk = false → env.concatReencodeOk = false →
      process_video_translation env units vd = none := by
    intro hc hr
    unfold process_video_translation
    split_ifs <;> try rfl
    rcases e : step3 env (step2 env (step1 env units vd)) with _ | fs0
    · rfl
    · unfold concatFinish
      split_ifs <;> simp_all
  refine ⟨?_, ?_, keyNone⟩
  · intro hc m fs h
    obtain ⟨fs0, hf⟩ := key m fs h
    unfold concatFinish at hf
    split_ifs at hf
    simp_all
  · intro hc m fs h
    obtain ⟨fs0, hf⟩ := key m fs h
    unfold concatFinish at hf
    split_ifs at hf <;> simp_all

/-- Environment in which all external calls succeed except both final
concatenation attempts. -/
def envC9 : RunEnv :=
  ⟨true, true, true, fun _ => true, fun _ => true, fun _ => true, true, true,
   fun _ => true, fun _ => true, fun _ => true, fun _ => true, fun _ => true,
   false, false⟩

/-- Witness for C9: with both the stream-copy join and the re-encode retry
failing, the run reports failure. -/
theorem concat_C9_witness :
    process_video_translation envC9 [⟨0, 2000, 2⟩] 10 = none :=
  (concat_C9 envC9 [⟨0, 2000, 2⟩] 10).2.2 rfl rfl

/-- C2 counterexample: a 10.05 s TTS audio against a 10.0 s video is longer
than the video, so the reconciliation takes the truncation branch; it is not
used as-is. -/
theorem replacer_C2_counterexample :
    (reconcileAudio 10 (201/20)).1 = AudioFix.truncate ∧
    (reconcileAudio 10 (201/20)).1 ≠ AudioFix.asIs := by
  have h : (reconcileAudio 10 (201/20)).1 = AudioFix.truncate := by
    norm_num [reconcileAudio]
  rw [h]
  exact ⟨rfl, by decide⟩

/-- C2 (amended): with `video.duration = 10.0 s`, a 12.0 s audio is truncated
to 10.0 s and a 7.0 s audio is padded to 10.0 s; a 10.05 s audio exceeds the
video duration and is therefore also truncated to 10.0 s, not used as-is;
the as-is branch applies only when
`video.duration - 0.1 <= audio.duration <= video.duration`, e.g. 9.95 s. -/
theorem replacer_C2_amended :
    reconcileAudio 10 12 = (AudioFix.truncate, 10) ∧
    reconcileAudio 10 7 = (AudioFix.pad, 10) ∧
    reconcileAudio 10 (201/20) = (AudioFix.truncate, 10) ∧
    reconcileAudio 10 (199/20) = (AudioFix.asIs, 199/20) := by
  norm_num [reconcileAudio]

/-- C3: whenever the post-mux stream probe of `merge_audio_with_video`
reports the stream counts, a successful return implies exactly one video and
one audio stream, and any mismatch forces the operation to report failure. -/
theorem replacer_C3 (env : MergeEnv) (v a : ℕ) (hsc : env.streamCounts = some (v, a)) :
    (merge_audio_with_video env = true → v = 1 ∧ a = 1) ∧
    (¬(v = 1 ∧ a = 1) → merge_audio_with_video env = false) := by
  have key : ¬(v = 1 ∧ a = 1) → merge_audio_with_video env = false := by
    intro hne
    unfold merge_audio_with_video
    rcases hv : env.videoDuration with _ | vd
    · split_ifs <;> rfl
    · rcases ha : env.audioDuration with _ | ad
      · split_ifs <;> rfl
      · rw [hsc]
        show (if env.videoExists = false then false
          else if env.audioExists = false then false
          else if env.extractOk = false then false
          else if (match (reconcileAudio vd ad).1 with
              | AudioFix.truncate => env.cutOk
              | AudioFix.pad => env.padOk
              | AudioFix.asIs => true) = false then false
          else if env.muxOk = false then false
          else if env.outputExists = false then false
          else if env.outputSize < 1024 then false
          else (if v = 1 ∧ a = 1 then env.finalProbeOk else false)) = false
        rw [if_neg hne]
        split_ifs <;> rfl
  refine ⟨?_, key⟩
  intro htrue
  by_contra hne
  rw [key hne] at htrue
  simp at htrue

/-- Environment for the C3 witness: every call succeeds but the output
carries two video streams. -/
def envC3w : MergeEnv :=
  ⟨true, true, some 10, some 10, true, true, true, true, true, 2048, some (2, 1), true⟩

/-- Witness for C3: a probed stream count of two video streams and one audio
stream makes the replace operation report failure. -/
theorem replacer_C3_witness : merge_audio_with_video envC3w = false :=
  (replacer_C3 envC3w 2 1 rfl).2 (by norm_num)

/-- C10: when every external step of `merge_audio_with_video` succeeds but
the post-mux verification probe raises (stream counts unavailable), the
operation logs a warning and still returns success, leaving the stream-count
and duration checks unverified. -/
theorem replacer_C10 (env : MergeEnv) (vd ad : ℚ)
    (h1 : env.videoExists = true) (h2 : env.audioExists = true)
    (h3 : env.videoDuration = some vd) (h4 : env.audioDuration = some ad)
    (h5 : env.extractOk = true) (h6 : env.cutOk = true) (h7 : env.padOk = true)
    (h8 : env.muxOk = true) (h9 : env.outputExists = true)
    (h10 : 1024 ≤ env.outputSize) (h11 : env.streamCounts = none)
    (h12 : env.finalProbeOk = true) :
    merge_audio_with_video env = true := by
  have hsize : ¬(env.outputSize < 1024) := not_lt.mpr h10
  have hstep : (match (reconcileAudio vd ad).1 with
      | AudioFix.truncate => env.cutOk
      | AudioFix.pad => env.padOk
      | AudioFix.asIs => true) = true := by
    cases hx : (reconcileAudio vd ad).1 <;> simp [h6, h7]
  unfold merge_audio_with_video
  rw [h3, h4]
  simp [h1, h2, h5, h8, h9, h11, h12, hstep, hsize]

/-- Environment for the C10 witness: everything succeeds, the stream probe
raises. -/
def envC10 : MergeEnv :=
  ⟨true, true, some 10, some 10, true, true, true, true, true, 2048, none, true⟩

/-- Witness for C10: the replace operation returns success although the
verification probe raised. -/
theorem replacer_C10_witness : merge_audio_with_video envC10 = true :=
  replacer_C10 envC10 10 10 rfl rfl rfl rfl rfl rfl rfl rfl rfl (by decide) rfl rfl

/-- C8 (amended): only `create_speed_adjusted_video_segment` special-cases
requested spans under 0.1 s, synthesizing a black placeholder clip instead
of extracting and reporting success whenever the placeholder synthesis
command itself succeeds; the audio-preserving extractor
`create_video_segment_with_audio` used by the 4-step pipeline has no
placeholder path and never produces a placeholder for any span. -/
theorem extractor_C8_amended (env env2 : ExtractEnv) (s e t s2 e2 : ℚ)
    (h : e - s < 1/10) :
    create_speed_adjusted_video_segment env s e t
      = (if env.placeholderOk = true then ExtractOutcome.placeholder
         else ExtractOutcome.failed) ∧
    create_video_segment_with_audio env2 s2 e2 ≠ ExtractOutcome.placeholder := by
  constructor
  · simp only [create_speed_adjusted_video_segment]
    rw [if_pos h]
  · simp only [create_video_segment_with_audio]
    split_ifs <;> simp

/-- Witness for C8 (amended) at a 0.05 s span. -/
theorem extractor_C8_witness :
    ((1/20 : ℚ) - 0 < 1/10) ∧
    (create_speed_adjusted_video_segment allOkExtractEnv 0 (1/20) 1
        = (if allOkExtractEnv.placeholderOk = true then ExtractOutcome.placeholder
           else ExtractOutcome.failed) ∧
      create_video_segment_with_audio allOkExtractEnv 3 7 ≠ ExtractOutcome.placeholder) :=
  ⟨by norm_num, extractor_C8_amended allOkExtractEnv allOkExtractEnv 0 (1/20) 1 3 7 (by norm_num)⟩

/-- C8 counterexample: a requested span of 0.05 s (strictly under 0.1 s)
given to `create_video_segment_with_audio` is extracted from the source by
stream copy with the requested duration; no placeholder is produced. -/
theorem extractor_C8_counterexample :
    create_video_segment_with_audio allOkExtractEnv 0 (1/20) = ExtractOutcome.copied (1/20) ∧
    ExtractOutcome.copied (1/20) ≠ ExtractOutcome.placeholder ∧
    ((1/20 : ℚ) - 0 < 1/10) := by
  refine ⟨?_, by simp, by norm_num⟩
  norm_num [create_video_segment_with_audio, allOkExtractEnv]
